import Mathlib

/-!
Verification development for the knowledge-base core of the hse-eco-bot repository:
the relational provider (src/kb/providers/db.rs), the archive overlay provider
(src/kb/providers/archive.rs), the command layer (src/db.rs) and the address text
form (src/db.rs, src/callback_query.rs).

Machine integers: all ids are `u64` in the source; they are embedded as `Nat`.
None of the relational-provider operations perform arithmetic that can overflow
(`last_insert_rowid` grows by one per insert), so no modular reduction is needed;
the one place where the numeric range matters is the `u64::MAX` sentinel of the
archive provider, embedded as `2 ^ 64 - 1`, and text-form parsing, which rejects
values `≥ 2 ^ 64` exactly as `str::parse::<u64>` does.

SQLite storage is embedded as explicit lists of rows.  The schema file
(bootstrap.sql) and three SQL files included by db.rs (check_ancestors.sql,
delete_dir_1.sql, delete_dir_2.sql) are not among the sources; those parts are
modelled from the spec and marked as such in their doc comments.
-/

namespace HseEco

/-- Caller permission snapshot, struct Permissions of src/user.rs (six bool flags). -/
structure Permissions where
  editKb : Bool
  receiveServiceNotifications : Bool
  receiveFeedback : Bool
  admin : Bool
  manageEvents : Bool
  sendGlobalNotifications : Bool
deriving DecidableEq, Repr

/-- ProviderError from src/kb.rs.  The `SqliteError(rusqlite::Error)` payload is
dropped: no claim inspects it. -/
inductive ProviderError where
  | NoSuchDirectory (id : Nat)
  | NoSuchNote (id : Nat)
  | WouldCreateLoop
  | OperationNotSupported
  | CannotRenameRoot
  | CannotMoveRoot
  | CannotDeleteRoot
  | TargetNameAlreadyExists (name : String)
  | NoSuchProvider (id : Nat)
  | CrossProviderMove
  | SqliteError
  | Corrupt (description : String)
  | PermissionDenied
deriving DecidableEq, Repr

/-- The sqlite failure kinds distinguished by wrap_sqlite_error in db.rs:
extended code 787 (foreign key), 2067 (unique), and QueryReturnedNoRows. -/
inductive SqliteFailure where
  | foreignKeyViolation
  | uniqueViolation
  | queryReturnedNoRows
deriving DecidableEq, Repr

/-- FailureMap from db.rs: the three optional handlers given to wrap_sqlite_error. -/
structure FailureMap where
  foreignKeyF : Option ProviderError
  uniqueF : Option ProviderError
  emptyF : Option ProviderError

/-- wrap_sqlite_error from db.rs: route each failure kind to its handler when one
is given, otherwise fall through to `ProviderError::from`, i.e. `SqliteError`. -/
def wrapSqliteError (map : FailureMap) (e : SqliteFailure) : ProviderError :=
  match e with
  | .queryReturnedNoRows => (map.emptyF).getD .SqliteError
  | .foreignKeyViolation => (map.foreignKeyF).getD .SqliteError
  | .uniqueViolation => (map.uniqueF).getD .SqliteError

/-- One row of the kb_dir_children adjacency table. -/
structure DirChildRow where
  parentId : Nat
  childId : Nat
  childName : String
deriving DecidableEq, Repr

/-- One row of the kb_note_children adjacency table. -/
structure NoteChildRow where
  parentId : Nat
  childId : Nat
  childName : String
deriving DecidableEq, Repr

/-- One row of the kb_notes content table. -/
structure NoteRow where
  id : Nat
  content : String
deriving DecidableEq, Repr

/-- Modelled from the spec: bootstrap.sql is not among the sources.  Spec §6 gives
the conceptual schema: a directories table (kb_dirs, root is row 0), the two
adjacency tables with a unique constraint on (parent_id, child_name) and foreign
keys into the parent tables, and a notes content table.  `nextDirId`/`nextNoteId`
model sqlite rowid allocation (`last_insert_rowid`). -/
structure DbState where
  dirs : List Nat
  dirChildren : List DirChildRow
  noteChildren : List NoteChildRow
  notes : List NoteRow
  nextDirId : Nat
  nextNoteId : Nat
deriving DecidableEq, Repr

/-- DbProvider from db.rs.  `pid` is the provider id after `assign_id` (the source
stores `Option<ProviderId>` and `id()` is only called after assignment);
`mountPoints` is the DirectoryId → ProviderId map, embedded as an association
list with HashMap insert-replaces semantics. -/
structure DbProvider where
  db : DbState
  pid : Nat
  mountPoints : List (Nat × Nat)
deriving DecidableEq, Repr

/-- Lookup in the mount_points map. -/
def DbProvider.lookupMount (p : DbProvider) (d : Nat) : Option Nat :=
  (p.mountPoints.find? (fun kv => kv.1 == d)).map (fun kv => kv.2)

/-- ItemRef from kb.rs: a directory or note reference carrying (local id, provider id). -/
inductive ItemRef where
  | directory (id : Nat) (providerId : Nat)
  | note (id : Nat) (providerId : Nat)
deriving DecidableEq, Repr

/-- Directory listing: the children vector of Directory in kb.rs. -/
abbrev Listing := List (String × ItemRef)

/-- The stored parent of a directory: the first kb_dir_children row with this child id
(`SELECT parent_id FROM kb_dir_children WHERE child_id = ?`, query_row takes the
first row). -/
def parentOf (st : DbState) (d : Nat) : Option Nat :=
  (st.dirChildren.find? (fun r => r.childId == d)).map (fun r => r.parentId)

/-- Modelled from the spec: check_ancestors.sql is not among the sources.  Spec §4.2:
the move checks whether the destination is a descendant of (or equal to) the item
by walking ancestry in storage.  `ancWalk st target fuel cur` walks parent rows
upward from `cur` and reports whether it meets `target`. -/
def ancWalk (st : DbState) (target : Nat) : Nat → Nat → Bool
  | 0, _ => false
  | fuel + 1, cur =>
    if cur == target then true
    else
      match parentOf st cur with
      | none => false
      | some par => ancWalk st target fuel par

/-- The descendant-or-equal test of check_ancestors.sql: any upward chain of distinct
adjacency rows has length at most the table size, so this fuel suffices. -/
def isAncestorOrEq (st : DbState) (target dest : Nat) : Bool :=
  ancWalk st target (st.dirChildren.length + 1) dest

/-- Iterated stored-parent map: `parentIter st k d` is the directory reached from `d`
by following `k` parent rows, when they all exist. -/
def parentIter (st : DbState) : Nat → Nat → Option Nat
  | 0, d => some d
  | k + 1, d =>
    match parentOf st d with
    | none => none
    | some par => parentIter st k par

/-- Directory `b` is a descendant of `a` in storage, or equal to it: walking parent
rows upward from `b` reaches `a`. -/
def DescendantOrEq (st : DbState) (a b : Nat) : Prop :=
  ∃ k, parentIter st k b = some a

/-- Modelled from the spec (schema of bootstrap.sql, see `DbState`): inserting a
kb_dir_children row fails with a foreign-key violation when either endpoint is not
a directory, and with a unique violation when the parent already has a directory
child with that name. -/
def insertDirChild (st : DbState) (parent child : Nat) (name : String) :
    Except SqliteFailure DbState :=
  if !(st.dirs.contains parent && st.dirs.contains child) then
    .error .foreignKeyViolation
  else if st.dirChildren.any (fun r => r.parentId == parent && r.childName == name) then
    .error .uniqueViolation
  else
    .ok { st with dirChildren := st.dirChildren ++ [⟨parent, child, name⟩] }

/-- Modelled from the spec (schema of bootstrap.sql, see `DbState`): inserting a
kb_note_children row; symmetric to `insertDirChild`, with the child referencing
the kb_notes table. -/
def insertNoteChild (st : DbState) (parent child : Nat) (name : String) :
    Except SqliteFailure DbState :=
  if !(st.dirs.contains parent && st.notes.any (fun r => r.id == child)) then
    .error .foreignKeyViolation
  else if st.noteChildren.any (fun r => r.parentId == parent && r.childName == name) then
    .error .uniqueViolation
  else
    .ok { st with noteChildren := st.noteChildren ++ [⟨parent, child, name⟩] }

/-- DbProvider::create_note: inside one transaction, insert the content row, then
the adjacency row (mapping a foreign-key violation to NoSuchDirectory(target) and
a unique violation to TargetNameAlreadyExists(name)); commit only on success, so
a failure returns the pre-call state. -/
def DbProvider.createNote (p : DbProvider) (target : Nat) (noteText name : String) :
    Except ProviderError Nat × DbProvider :=
  let st := p.db
  let noteRawId := st.nextNoteId
  let st1 : DbState :=
    { st with notes := st.notes ++ [⟨noteRawId, noteText⟩], nextNoteId := st.nextNoteId + 1 }
  match insertNoteChild st1 target noteRawId name with
  | .error e =>
    (.error (wrapSqliteError
      ⟨some (.NoSuchDirectory target), some (.TargetNameAlreadyExists name), none⟩ e), p)
  | .ok st2 => (.ok noteRawId, { p with db := st2 })

/-- DbProvider::create_directory: insert the kb_dirs row, then the adjacency row,
with the same error mapping as create_note; commit only on success. -/
def DbProvider.createDirectory (p : DbProvider) (target : Nat) (name : String) :
    Except ProviderError Nat × DbProvider :=
  let st := p.db
  let dirRawId := st.nextDirId
  let st1 : DbState :=
    { st with dirs := st.dirs ++ [dirRawId], nextDirId := st.nextDirId + 1 }
  match insertDirChild st1 target dirRawId name with
  | .error e =>
    (.error (wrapSqliteError
      ⟨some (.NoSuchDirectory target), some (.TargetNameAlreadyExists name), none⟩ e), p)
  | .ok st2 => (.ok dirRawId, { p with db := st2 })

/-- The per-call view of ctx.provider_map that DbProvider::read_directory uses for a
mounted directory: it borrows the mounted provider and runs
`provider.root_directory(ctx, uctx)?.read(uctx)`.  The two calls on the mounted
provider are abstracted as a pair of functions. -/
structure MountedProviderOps where
  rootDirectory : Except ProviderError Nat
  readDirectory : Nat → Except ProviderError Listing

/-- DbProvider::read_directory: a mount-point id delegates entirely to the mounted
provider's root listing; otherwise one UNION ALL query collects note children
(tag 0) then directory children (tag 1); the third branch (the kb_dirs existence
row, tag 2) is fetched and ignored by the row loop (`2 => ()`), so a directory id
with no rows at all yields an empty listing. -/
def DbProvider.readDirectory (p : DbProvider) (ctxProviders : Nat → MountedProviderOps)
    (id : Nat) : Except ProviderError Listing :=
  match p.lookupMount id with
  | some providerId =>
    match (ctxProviders providerId).rootDirectory with
    | .error e => .error e
    | .ok rootId => (ctxProviders providerId).readDirectory rootId
  | none =>
    let noteRows := (p.db.noteChildren.filter (fun r => r.parentId == id)).map
      (fun r => (r.childName, ItemRef.note r.childId p.pid))
    let dirRows := (p.db.dirChildren.filter (fun r => r.parentId == id)).map
      (fun r => (r.childName, ItemRef.directory r.childId p.pid))
    .ok (noteRows ++ dirRows)

/-- DbProvider::get_directory_parent: id 0 is the root (parent None); otherwise the
first adjacency row gives the parent, and no row maps to NoSuchDirectory(id).
The result pairs the parent id with this provider's id (the DirectoryRef fields). -/
def DbProvider.getDirectoryParent (p : DbProvider) (id : Nat) :
    Except ProviderError (Option (Nat × Nat)) :=
  if id == 0 then .ok none
  else
    match p.db.dirChildren.find? (fun r => r.childId == id) with
    | none => .error (.NoSuchDirectory id)
    | some row => .ok (some (row.parentId, p.pid))

/-- DbProvider::get_note_parent: the first kb_note_children row gives the parent;
no row maps to NoSuchNote(id). -/
def DbProvider.getNoteParent (p : DbProvider) (id : Nat) :
    Except ProviderError (Nat × Nat) :=
  match p.db.noteChildren.find? (fun r => r.childId == id) with
  | none => .error (.NoSuchNote id)
  | some row => .ok (row.parentId, p.pid)

/-- DbProvider::get_directory_name: root has no name; otherwise the adjacency row's
child_name, and no row maps to NoSuchDirectory(id). -/
def DbProvider.getDirectoryName (p : DbProvider) (id : Nat) :
    Except ProviderError (Option String) :=
  if id == 0 then .ok none
  else
    match p.db.dirChildren.find? (fun r => r.childId == id) with
    | none => .error (.NoSuchDirectory id)
    | some row => .ok (some row.childName)

/-- DbProvider::get_note_name: the kb_note_children row's child_name, NoSuchNote(id)
when there is none. -/
def DbProvider.getNoteName (p : DbProvider) (id : Nat) : Except ProviderError String :=
  match p.db.noteChildren.find? (fun r => r.childId == id) with
  | none => .error (.NoSuchNote id)
  | some row => .ok row.childName

/-- DbProvider::read_note: the kb_notes content row, NoSuchNote(id) when there is none. -/
def DbProvider.readNote (p : DbProvider) (id : Nat) : Except ProviderError String :=
  match p.db.notes.find? (fun r => r.id == id) with
  | none => .error (.NoSuchNote id)
  | some row => .ok row.content

/-- DbProvider::update_note: UPDATE kb_notes; zero affected rows is NoSuchNote and the
transaction is not committed; exactly one row commits.  More than one affected row
is `unreachable!()` in the source: the panic aborts without committing, embedded
here as a Corrupt error with the state unchanged. -/
def DbProvider.updateNote (p : DbProvider) (id : Nat) (noteText : String) :
    Except ProviderError Unit × DbProvider :=
  match (p.db.notes.filter (fun r => r.id == id)).length with
  | 0 => (.error (.NoSuchNote id), p)
  | 1 =>
    let newNotes := p.db.notes.map
      (fun r => if r.id == id then { r with content := noteText } else r)
    (.ok (), { p with db := { p.db with notes := newNotes } })
  | _ => (.error (.Corrupt "unreachable"), p)

/-- DbProvider::delete_note: DELETE FROM kb_notes; zero affected rows is NoSuchNote;
one row commits; more is `unreachable!()`, embedded as in `updateNote`. -/
def DbProvider.deleteNote (p : DbProvider) (id : Nat) :
    Except ProviderError Unit × DbProvider :=
  match (p.db.notes.filter (fun r => r.id == id)).length with
  | 0 => (.error (.NoSuchNote id), p)
  | 1 =>
    let newNotes := p.db.notes.filter (fun r => !(r.id == id))
    (.ok (), { p with db := { p.db with notes := newNotes } })
  | _ => (.error (.Corrupt "unreachable"), p)

/-- DbProvider::delete_directory.  The root and mount-point rejections are from the
source; the body is modelled from the spec because delete_dir_1.sql and
delete_dir_2.sql are not among the sources: spec §4.2 says deletion cascades to all
descendants and their notes as a single transactional step, and the first statement
affecting zero directories maps to NoSuchDirectory(id). -/
def DbProvider.deleteDirectory (p : DbProvider) (id : Nat) :
    Except ProviderError Unit × DbProvider :=
  if id == 0 then (.error .CannotDeleteRoot, p)
  else if (p.lookupMount id).isSome then (.error .OperationNotSupported, p)
  else if !(p.db.dirs.contains id) then (.error (.NoSuchDirectory id), p)
  else
    let st := p.db
    let inSubtree : Nat → Bool := fun d => isAncestorOrEq st id d
    let removedNotes := (st.noteChildren.filter (fun r => inSubtree r.parentId)).map
      (fun r => r.childId)
    (.ok (), { p with db :=
      { st with
        dirs := st.dirs.filter (fun d => !(inSubtree d)),
        dirChildren := st.dirChildren.filter (fun r => !(inSubtree r.childId)),
        noteChildren := st.noteChildren.filter (fun r => !(inSubtree r.parentId)),
        notes := st.notes.filter (fun r => !(removedNotes.contains r.id)) } })

/-- DbProvider::rename_directory: reject the root (CannotRenameRoot) and mount points
(OperationNotSupported); UPDATE kb_dir_children SET child_name; a unique violation
(another child of the same parent already has the new name) maps to
TargetNameAlreadyExists; zero affected rows is NoSuchDirectory; more than one is
`unreachable!()`, embedded as in `updateNote`. -/
def DbProvider.renameDirectory (p : DbProvider) (id : Nat) (newName : String) :
    Except ProviderError Unit × DbProvider :=
  if id == 0 then (.error .CannotRenameRoot, p)
  else if (p.lookupMount id).isSome then (.error .OperationNotSupported, p)
  else
    let rows := p.db.dirChildren
    if rows.any (fun m => m.childId == id && rows.any (fun r =>
        !(r.childId == id) && r.parentId == m.parentId && r.childName == newName)) then
      (.error (.TargetNameAlreadyExists newName), p)
    else
      match (rows.filter (fun r => r.childId == id)).length with
      | 0 => (.error (.NoSuchDirectory id), p)
      | 1 =>
        let newRows := rows.map
          (fun r => if r.childId == id then { r with childName := newName } else r)
        (.ok (), { p with db := { p.db with dirChildren := newRows } })
      | _ => (.error (.Corrupt "unreachable"), p)

/-- DbProvider::rename_note: UPDATE kb_note_children SET child_name, with the same
error mapping as rename_directory but over note children and NoSuchNote. -/
def DbProvider.renameNote (p : DbProvider) (id : Nat) (newName : String) :
    Except ProviderError Unit × DbProvider :=
  let rows := p.db.noteChildren
  if rows.any (fun m => m.childId == id && rows.any (fun r =>
      !(r.childId == id) && r.parentId == m.parentId && r.childName == newName)) then
    (.error (.TargetNameAlreadyExists newName), p)
  else
    match (rows.filter (fun r => r.childId == id)).length with
    | 0 => (.error (.NoSuchNote id), p)
    | 1 =>
      let newRows := rows.map
        (fun r => if r.childId == id then { r with childName := newName } else r)
      (.ok (), { p with db := { p.db with noteChildren := newRows } })
    | _ => (.error (.Corrupt "unreachable"), p)

/-- DbProvider::move_directory: reject the root (CannotMoveRoot) and mount points
(OperationNotSupported); look up the item's current name (NoSuchDirectory if it has
no adjacency row — this is `get_directory_name` inlined for a non-zero id, whose
`Some` the source unwraps); inside one immediate transaction run the ancestry check
(WouldCreateLoop) before any mutation, then UPDATE the row's parent_id.  A
foreign-key violation on the update has no handler (`fk => ?`) and surfaces as
SqliteError; a unique violation maps to TargetNameAlreadyExists with the current
name; zero affected rows is NoSuchDirectory; more is `unreachable!()`. -/
def DbProvider.moveDirectory (p : DbProvider) (id destination : Nat) :
    Except ProviderError Unit × DbProvider :=
  if id == 0 then (.error .CannotMoveRoot, p)
  else if (p.lookupMount id).isSome then (.error .OperationNotSupported, p)
  else
    match p.db.dirChildren.find? (fun r => r.childId == id) with
    | none => (.error (.NoSuchDirectory id), p)
    | some row =>
      let name := row.childName
      if isAncestorOrEq p.db id destination then (.error .WouldCreateLoop, p)
      else
        let rows := p.db.dirChildren
        if !(p.db.dirs.contains destination) then (.error .SqliteError, p)
        else if rows.any (fun r =>
            !(r.childId == id) && r.parentId == destination && r.childName == name) then
          (.error (.TargetNameAlreadyExists name), p)
        else
          match (rows.filter (fun r => r.childId == id)).length with
          | 0 => (.error (.NoSuchDirectory id), p)
          | 1 =>
            let newRows := rows.map
              (fun r => if r.childId == id then { r with parentId := destination } else r)
            (.ok (), { p with db := { p.db with dirChildren := newRows } })
          | _ => (.error (.Corrupt "unreachable"), p)

/-- DbProvider::move_note: look up the note's current name (NoSuchNote when it has no
adjacency row), then UPDATE the row's parent_id with the same error mapping as
move_directory but over note children (and no root, mount or ancestry checks). -/
def DbProvider.moveNote (p : DbProvider) (id destination : Nat) :
    Except ProviderError Unit × DbProvider :=
  match p.db.noteChildren.find? (fun r => r.childId == id) with
  | none => (.error (.NoSuchNote id), p)
  | some row =>
    let name := row.childName
    let rows := p.db.noteChildren
    if !(p.db.dirs.contains destination) then (.error .SqliteError, p)
    else if rows.any (fun r =>
        !(r.childId == id) && r.parentId == destination && r.childName == name) then
      (.error (.TargetNameAlreadyExists name), p)
    else
      match (rows.filter (fun r => r.childId == id)).length with
      | 0 => (.error (.NoSuchNote id), p)
      | 1 =>
        let newRows := rows.map
          (fun r => if r.childId == id then { r with parentId := destination } else r)
        (.ok (), { p with db := { p.db with noteChildren := newRows } })
      | _ => (.error (.Corrupt "unreachable"), p)

/-- DbProvider::add_mount_point: unconditionally insert into the mount_points map
(HashMap::insert replaces any previous binding) and return Ok. -/
def DbProvider.addMountPoint (p : DbProvider) (mountDir providerId : Nat) :
    Except ProviderError Unit × DbProvider :=
  (.ok (), { p with mountPoints :=
    (mountDir, providerId) :: p.mountPoints.filter (fun kv => !(kv.1 == mountDir)) })

/-- The archive provider's synthetic root directory id, ROOT_DIR_ID = u64::MAX
in archive.rs. -/
def archiveRootDirId : Nat := 2 ^ 64 - 1

/-- One row of the kb_newsletters log read by the archive provider. -/
structure NewsletterRow where
  id : Nat
  name : String
  timestamp : String
  content : String
deriving DecidableEq, Repr

/-- ArchiveProvider from archive.rs: the append-only log, the feed name maps built
from the newsletter list at construction (names_map : name → (index, description),
ids_map : index → name), the (host provider, host directory) pair it is mounted on,
and its assigned provider id. -/
structure ArchiveProvider where
  newsRows : List NewsletterRow
  namesMap : List (String × Nat × String)
  idsMap : List (Nat × String)
  mountedOn : Nat × Nat
  pid : Nat

/-- Feed description lookup, `self.names_map[v].1`: the source indexes the HashMap,
which cannot miss because names_map and ids_map are built together; the default
makes the embedding total. -/
def ArchiveProvider.descriptionOf (a : ArchiveProvider) (name : String) : String :=
  ((a.namesMap.find? (fun kv => kv.1 == name)).map (fun kv => kv.2.2)).getD ""

/-- make_note_name from archive.rs: the entry name combines the timestamp and the
sequence id.  The chrono parse/re-format of the stored RFC3339 timestamp is
abstracted to the raw stored string; no claim inspects the name text. -/
def makeNoteName (id : Nat) (timestamp : String) : String :=
  timestamp ++ " (# " ++ Nat.repr id ++ ")"

/-- ArchiveProvider::read_directory: the synthetic root lists one subdirectory per
feed whose visibility predicate (from ctx.newsletters) accepts the caller's
permissions; a feed subdirectory id is looked up in ids_map (NoSuchDirectory if
unknown), its predicate is re-checked (PermissionDenied if it fails), and then the
feed's entries are listed as notes. -/
def ArchiveProvider.readDirectory (a : ArchiveProvider)
    (pred : String → Permissions → Bool) (perms : Permissions) (id : Nat) :
    Except ProviderError Listing :=
  if id == archiveRootDirId then
    let entries := a.idsMap.map
      (fun kv => (kv.2, a.descriptionOf kv.2, ItemRef.directory kv.1 a.pid))
    .ok ((entries.filter (fun t => pred t.1 perms)).map (fun t => (t.2.1, t.2.2)))
  else
    match a.idsMap.find? (fun kv => kv.1 == id) with
    | none => .error (.NoSuchDirectory id)
    | some kv =>
      if !(pred kv.2 perms) then .error .PermissionDenied
      else
        let feedRows := a.newsRows.filter (fun r => r.name == kv.2)
        .ok (feedRows.map (fun r => (makeNoteName r.id r.timestamp, ItemRef.note r.id a.pid)))

/-- ArchiveProvider::get_directory_parent: on the synthetic root it builds a
DirectoryRef for the (host provider, mount directory) pair and asks for its parent,
i.e. it delegates to the host provider's get_directory_parent on the mount
directory, abstracted as the `hostGetDirectoryParent` function; any other id's
parent is the synthetic root. -/
def ArchiveProvider.getDirectoryParent (a : ArchiveProvider)
    (hostGetDirectoryParent : Nat → Except ProviderError (Option (Nat × Nat)))
    (id : Nat) : Except ProviderError (Option (Nat × Nat)) :=
  if id == archiveRootDirId then
    hostGetDirectoryParent a.mountedOn.2
  else
    .ok (some (archiveRootDirId, a.pid))

/-- ArchiveProvider::read_note: fetch (name, content) for the entry id from the log
(a missing row surfaces as an unmapped sqlite error), then re-check the feed's
visibility predicate, failing with PermissionDenied before the content is
returned. -/
def ArchiveProvider.readNote (a : ArchiveProvider)
    (pred : String → Permissions → Bool) (perms : Permissions) (id : Nat) :
    Except ProviderError String :=
  match a.newsRows.find? (fun r => r.id == id) with
  | none => .error .SqliteError
  | some r =>
    if !(pred r.name perms) then .error .PermissionDenied
    else .ok r.content

/-- FullDirectoryId from src/db.rs: the (provider, directory) address pair. -/
structure FullDirectoryId where
  provider : Nat
  directory : Nat
deriving DecidableEq, Repr

/-- FullNoteId from src/db.rs: the (provider, note) address pair. -/
structure FullNoteId where
  provider : Nat
  note : Nat
deriving DecidableEq, Repr

/-- CommandSender::move_directory (src/db.rs): the command closure first rejects a
cross-provider pair, before make_directory_ref or any provider method runs; the
remainder of the closure (ref construction plus DirectoryRef::move_to) is
abstracted as the `providerMove` function over the actor's state. -/
def csMoveDirectory {σ : Type} (tree : σ)
    (providerMove : Nat → Nat → Nat → σ → Except ProviderError Unit × σ)
    (directory destination : FullDirectoryId) : Except ProviderError Unit × σ :=
  if directory.provider != destination.provider then (.error .CrossProviderMove, tree)
  else providerMove directory.provider directory.directory destination.directory tree

/-- CommandSender::move_note (src/db.rs): same shape as csMoveDirectory, over a note
and a destination directory. -/
def csMoveNote {σ : Type} (tree : σ)
    (providerMove : Nat → Nat → Nat → σ → Except ProviderError Unit × σ)
    (note : FullNoteId) (destination : FullDirectoryId) : Except ProviderError Unit × σ :=
  if note.provider != destination.provider then (.error .CrossProviderMove, tree)
  else providerMove note.provider note.note destination.directory tree

/-- Decimal digit to its character, for embedding `write!("{}", u64)`. -/
def digitChar (d : Nat) : Char := Char.ofNat (48 + d)

/-- Little-endian decimal digits with explicit fuel (`n` itself is enough fuel since
the digit count of a positive number never exceeds the number). -/
def natDigitsRev : Nat → Nat → List Nat
  | 0, _ => []
  | fuel + 1, n => if n == 0 then [] else n % 10 :: natDigitsRev fuel (n / 10)

/-- The character sequence `write!("{}", v)` produces for a u64 value: standard
decimal, with a single 0 for zero. -/
def decRepr (n : Nat) : List Char :=
  if n == 0 then ['0'] else ((natDigitsRev n n).reverse.map digitChar)

/-- Display for FullDirectoryId (src/db.rs): `write!("{}:{}", provider, directory)`,
as its character sequence. -/
def FullDirectoryId.displayChars (x : FullDirectoryId) : List Char :=
  decRepr x.provider ++ ':' :: decRepr x.directory

/-- Display for FullNoteId (src/db.rs): `write!("{}:{}", provider, note)`. -/
def FullNoteId.displayChars (x : FullNoteId) : List Char :=
  decRepr x.provider ++ ':' :: decRepr x.note

/-- str::split_once: split at the first occurrence of the separator, None when the
separator does not occur. -/
def splitOnceChar (sep : Char) : List Char → Option (List Char × List Char)
  | [] => none
  | c :: cs =>
    if c == sep then some ([], cs)
    else
      match splitOnceChar sep cs with
      | none => none
      | some lr => some (c :: lr.1, lr.2)

/-- The optional leading sign accepted by u64's FromStr (a single leading +). -/
def stripPlus (s : List Char) : List Char :=
  match s with
  | c :: rest => if c == '+' then rest else s
  | [] => s

/-- Digit loop of u64's FromStr: left to right, acc = acc * 10 + digit with checked
arithmetic, so any intermediate value at or above 2^64 is an overflow error; a
non-digit character is an error. -/
def parseU64Digits : Nat → List Char → Option Nat
  | acc, [] => some acc
  | acc, c :: cs =>
    if c.isDigit then
      let acc2 := acc * 10 + (c.toNat - 48)
      if acc2 < 2 ^ 64 then parseU64Digits acc2 cs else none
    else none

/-- str::parse::<u64>: optional leading +, then one or more decimal digits. -/
def parseU64 (s : List Char) : Option Nat :=
  match stripPlus s with
  | [] => none
  | c :: cs => parseU64Digits 0 (c :: cs)

/-- parse_id_pair from src/callback_query.rs: split on the first colon and parse both
sides as u64. -/
def parseIdPairChars (s : List Char) : Option (Nat × Nat) :=
  match splitOnceChar ':' s with
  | none => none
  | some lr =>
    match parseU64 lr.1, parseU64 lr.2 with
    | some a, some b => some (a, b)
    | _, _ => none

/-- parse_directory_id from src/callback_query.rs, on the character sequence. -/
def parseFullDirectoryId (s : List Char) : Option FullDirectoryId :=
  (parseIdPairChars s).map (fun ab => ⟨ab.1, ab.2⟩)

/-- parse_note_id from src/callback_query.rs, on the character sequence. -/
def parseFullNoteId (s : List Char) : Option FullNoteId :=
  (parseIdPairChars s).map (fun ab => ⟨ab.1, ab.2⟩)

/-! Sample states used by witnesses and counterexamples. -/

/-- A freshly bootstrapped relational provider: only the root directory row. -/
def emptyDbProvider : DbProvider := ⟨⟨[0], [], [], [], 1, 1⟩, 0, []⟩

/-- A context in which no mounted provider answers anything. -/
def noMountedOps : Nat → MountedProviderOps :=
  fun _ => ⟨.error .OperationNotSupported, fun _ => .error .OperationNotSupported⟩

/-! Claim theorems. -/

/-- C3: for the relational provider's root directory (sentinel id 0),
rename_directory always fails with CannotRenameRoot, move_directory with
CannotMoveRoot and delete_directory with CannotDeleteRoot, and in each case the
returned provider state is exactly the input state (no row touched). -/
theorem c3_root_protection (p : DbProvider) (name : String) (dest : Nat) :
    p.renameDirectory 0 name = (.error .CannotRenameRoot, p) ∧
    p.moveDirectory 0 dest = (.error .CannotMoveRoot, p) ∧
    p.deleteDirectory 0 = (.error .CannotDeleteRoot, p) :=
  ⟨rfl, rfl, rfl⟩

/-- C7: when the item's owning provider id differs from the destination's owning
provider id, CommandSender::move_directory and CommandSender::move_note fail with
CrossProviderMove, the actor state is returned unchanged, and the result does not
depend on the provider-move continuation at all (no provider method is invoked). -/
theorem c7_cross_provider_move {σ : Type} (tree : σ)
    (providerMoveDir providerMoveNote : Nat → Nat → Nat → σ → Except ProviderError Unit × σ)
    (directory destination : FullDirectoryId) (note : FullNoteId)
    (hdir : directory.provider ≠ destination.provider)
    (hnote : note.provider ≠ destination.provider) :
    csMoveDirectory tree providerMoveDir directory destination
      = (.error .CrossProviderMove, tree) ∧
    csMoveNote tree providerMoveNote note destination
      = (.error .CrossProviderMove, tree) := by
  have h1 : (directory.provider != destination.provider) = true := by
    simpa using hdir
  have h2 : (note.provider != destination.provider) = true := by
    simpa using hnote
  constructor
  · simp [csMoveDirectory, h1]
  · simp [csMoveNote, h2]

/-- C7 witness: a concrete cross-provider pair is rejected with the state unchanged. -/
theorem c7_cross_provider_move_witness :
    csMoveDirectory (0 : Nat) (fun _ _ _ s => (.ok (), s)) ⟨0, 1⟩ ⟨1, 2⟩
      = (.error .CrossProviderMove, 0) ∧
    csMoveNote (0 : Nat) (fun _ _ _ s => (.ok (), s)) ⟨0, 3⟩ ⟨1, 2⟩
      = (.error .CrossProviderMove, 0) :=
  c7_cross_provider_move 0 (fun _ _ _ s => (.ok (), s)) (fun _ _ _ s => (.ok (), s))
    ⟨0, 1⟩ ⟨1, 2⟩ ⟨0, 3⟩ (by decide) (by decide)

/-- An adjacency insert can only fail with a constraint violation, never with the
empty-result error kind. -/
theorem insertNoteChild_ne_noRows (st : DbState) (parent child : Nat) (name : String) :
    insertNoteChild st parent child name ≠ .error .queryReturnedNoRows := by
  unfold insertNoteChild
  split
  · simp
  · split <;> simp

/-- An adjacency insert can only fail with a constraint violation, never with the
empty-result error kind. -/
theorem insertDirChild_ne_noRows (st : DbState) (parent child : Nat) (name : String) :
    insertDirChild st parent child name ≠ .error .queryReturnedNoRows := by
  unfold insertDirChild
  split
  · simp
  · split <;> simp

/-- C10: create_note and create_directory are atomic: whenever the call returns an
error, the returned provider state equals the pre-call state (the transaction is
never committed, so the content row of the first insert is not persisted), and the
error is one of the two mapped adjacency-insert failures. -/
theorem c10_create_atomic (p : DbProvider) (target : Nat) (noteText name : String)
    (e1 e2 : ProviderError)
    (hn : (p.createNote target noteText name).1 = .error e1)
    (hd : (p.createDirectory target name).1 = .error e2) :
    (p.createNote target noteText name).2 = p ∧
    (e1 = .NoSuchDirectory target ∨ e1 = .TargetNameAlreadyExists name) ∧
    (p.createDirectory target name).2 = p ∧
    (e2 = .NoSuchDirectory target ∨ e2 = .TargetNameAlreadyExists name) := by
  simp only [DbProvider.createNote] at hn ⊢
  simp only [DbProvider.createDirectory] at hd ⊢
  constructor
  · split at hn
    next heq => simp [heq]
    next heq => simp [heq] at hn
  constructor
  · split at hn
    next f heq =>
      simp only [heq] at hn
      cases f with
      | foreignKeyViolation =>
        simp [wrapSqliteError] at hn
        exact Or.inl hn.symm
      | uniqueViolation =>
        simp [wrapSqliteError] at hn
        exact Or.inr hn.symm
      | queryReturnedNoRows => exact absurd heq (insertNoteChild_ne_noRows _ _ _ _)
    next heq => simp [heq] at hn
  constructor
  · split at hd
    next heq => simp [heq]
    next heq => simp [heq] at hd
  · split at hd
    next f heq =>
      simp only [heq] at hd
      cases f with
      | foreignKeyViolation =>
        simp [wrapSqliteError] at hd
        exact Or.inl hd.symm
      | uniqueViolation =>
        simp [wrapSqliteError] at hd
        exact Or.inr hd.symm
      | queryReturnedNoRows => exact absurd heq (insertDirChild_ne_noRows _ _ _ _)
    next heq => simp [heq] at hd

/-- C10 witness: creating under a non-existent directory fails and leaves the fresh
provider state untouched. -/
theorem c10_create_atomic_witness :
    (emptyDbProvider.createNote 5 "text" "n").2 = emptyDbProvider ∧
    (ProviderError.NoSuchDirectory 5 = .NoSuchDirectory 5 ∨
      ProviderError.NoSuchDirectory 5 = .TargetNameAlreadyExists "n") ∧
    (emptyDbProvider.createDirectory 5 "n").2 = emptyDbProvider ∧
    (ProviderError.NoSuchDirectory 5 = .NoSuchDirectory 5 ∨
      ProviderError.NoSuchDirectory 5 = .TargetNameAlreadyExists "n") :=
  c10_create_atomic emptyDbProvider 5 "text" "n" (.NoSuchDirectory 5) (.NoSuchDirectory 5)
    rfl rfl

/-- A relational provider with directory 7 under the root, carrying a mount of
provider 1 on directory 7. -/
def sampleMountProvider : DbProvider :=
  ⟨⟨[0, 7], [⟨0, 7, "archive"⟩], [], [], 8, 1⟩, 0, [(7, 1)]⟩

/-- A context in which every mounted provider answers with a fixed root listing. -/
def sampleMountedOps : Nat → MountedProviderOps :=
  fun _ => ⟨.ok archiveRootDirId, fun r => .ok [("news", .directory 0 1), ("x", .note r 1)]⟩

/-- An archive provider with a single feed named eco holding one entry, mounted on
directory 7 of provider 0. -/
def sampleArchive : ArchiveProvider :=
  ⟨[⟨5, "eco", "2024-01-01T00:00:00Z", "hello"⟩],
    [("eco", 0, "Eco news")], [(0, "eco")], (0, 7), 1⟩

/-- A host parent-resolution function knowing only directory 7 (child of the root). -/
def sampleHostParent : Nat → Except ProviderError (Option (Nat × Nat)) :=
  fun d => if d == 7 then .ok (some (0, 0)) else .error (.NoSuchDirectory d)

/-- C5: read_directory on a directory id registered as a mount point returns exactly
the mounted provider's root listing, and the answer does not depend on the local
storage tables at all (no local adjacency row is read); and the archive provider's
get_directory_parent on its synthetic root returns exactly what the host provider's
get_directory_parent returns for the directory the archive is mounted on. -/
theorem c5_mount_transparency (p : DbProvider) (ctxProviders : Nat → MountedProviderOps)
    (id q rootId : Nat) (db2 : DbState) (a : ArchiveProvider)
    (hostGetDirectoryParent : Nat → Except ProviderError (Option (Nat × Nat)))
    (hmount : p.lookupMount id = some q)
    (hroot : (ctxProviders q).rootDirectory = .ok rootId) :
    p.readDirectory ctxProviders id = (ctxProviders q).readDirectory rootId ∧
    ({ p with db := db2 } : DbProvider).readDirectory ctxProviders id
      = p.readDirectory ctxProviders id ∧
    a.getDirectoryParent hostGetDirectoryParent archiveRootDirId
      = hostGetDirectoryParent a.mountedOn.2 := by
  have hm2 : ({ p with db := db2 } : DbProvider).lookupMount id = some q := hmount
  refine ⟨?_, ?_, ?_⟩
  · simp only [DbProvider.readDirectory, hmount, hroot]
  · simp only [DbProvider.readDirectory, hmount, hm2, hroot]
  · simp [ArchiveProvider.getDirectoryParent]

/-- C5 witness: the sample mount delegates, ignores local rows, and the sample
archive's synthetic-root parent is the host's resolution of directory 7. -/
theorem c5_mount_transparency_witness :
    sampleMountProvider.readDirectory sampleMountedOps 7
      = (sampleMountedOps 1).readDirectory archiveRootDirId ∧
    ({ sampleMountProvider with db := emptyDbProvider.db } : DbProvider).readDirectory
        sampleMountedOps 7
      = sampleMountProvider.readDirectory sampleMountedOps 7 ∧
    sampleArchive.getDirectoryParent sampleHostParent archiveRootDirId
      = sampleHostParent sampleArchive.mountedOn.2 :=
  c5_mount_transparency sampleMountProvider sampleMountedOps 7 1 archiveRootDirId
    emptyDbProvider.db sampleArchive sampleHostParent rfl rfl

/-- C6: for an existing feed of the archive provider whose visibility predicate
rejects the caller's permissions, read_directory on the feed's subdirectory fails
with PermissionDenied, and read_note on an entry of that feed fails with
PermissionDenied: the predicate is evaluated inside both read operations. -/
theorem c6_archive_read_permission (a : ArchiveProvider)
    (pred : String → Permissions → Bool) (perms : Permissions)
    (fid nid : Nat) (kv : Nat × String) (r : NewsletterRow)
    (hfid : (fid == archiveRootDirId) = false)
    (hfeed : a.idsMap.find? (fun x => x.1 == fid) = some kv)
    (hpred : pred kv.2 perms = false)
    (hnote : a.newsRows.find? (fun x => x.id == nid) = some r)
    (hname : r.name = kv.2) :
    a.readDirectory pred perms fid = .error .PermissionDenied ∧
    a.readNote pred perms nid = .error .PermissionDenied := by
  constructor
  · simp only [ArchiveProvider.readDirectory, hfid, hfeed]
    simp [hpred]
  · simp only [ArchiveProvider.readNote, hnote, hname]
    simp [hpred]

/-- Permissions with every flag off. -/
def noPermissions : Permissions := ⟨false, false, false, false, false, false⟩

/-- A visibility predicate demanding the admin flag. -/
def adminOnly : String → Permissions → Bool := fun _ pm => pm.admin

/-- C6 witness: the sample feed is hidden from a caller with no permissions, both
when listing its subdirectory and when reading its entry. -/
theorem c6_archive_read_permission_witness :
    sampleArchive.readDirectory adminOnly noPermissions 0 = .error .PermissionDenied ∧
    sampleArchive.readNote adminOnly noPermissions 5 = .error .PermissionDenied :=
  c6_archive_read_permission sampleArchive adminOnly noPermissions 0 5 (0, "eco")
    ⟨5, "eco", "2024-01-01T00:00:00Z", "hello"⟩ (by decide) rfl rfl rfl rfl

/-- C1 counterexample: on a freshly bootstrapped provider, read_directory with the
unknown, unmounted directory id 5 returns Ok with an empty listing instead of
failing with NoSuchDirectory(5), and add_mount_point with the non-existent
mount_dir 5 returns Ok instead of failing with NoSuchDirectory(5). -/
theorem c1_counterexample :
    emptyDbProvider.readDirectory noMountedOps 5 = .ok [] ∧
    emptyDbProvider.readDirectory noMountedOps 5 ≠ .error (.NoSuchDirectory 5) ∧
    (emptyDbProvider.addMountPoint 5 1).1 = .ok () ∧
    (emptyDbProvider.addMountPoint 5 1).1 ≠ .error (.NoSuchDirectory 5) :=
  ⟨rfl, fun h => Except.noConfusion h, rfl, fun h => Except.noConfusion h⟩

/-- C1 (amended): the point-lookup operations of the relational provider do fail
with NoSuchDirectory/NoSuchNote on an id the provider does not recognize, with the
state unchanged on the mutating ones; but read_directory called with a directory id
that is neither a mount point nor an existing directory returns Ok with an empty
listing, and add_mount_point returns Ok for any mount_dir, existing or not. -/
theorem c1_amended_unknown_ids (p : DbProvider) (ctxProviders : Nat → MountedProviderOps)
    (id providerId dest : Nat) (newName noteText : String) :
    (p.lookupMount id = none →
      (∀ r ∈ p.db.noteChildren, r.parentId ≠ id) →
      (∀ r ∈ p.db.dirChildren, r.parentId ≠ id) →
      p.readDirectory ctxProviders id = .ok []) ∧
    ((p.addMountPoint id providerId).1 = .ok ()) ∧
    (id ≠ 0 → (∀ r ∈ p.db.dirChildren, r.childId ≠ id) →
      p.getDirectoryParent id = .error (.NoSuchDirectory id) ∧
      p.getDirectoryName id = .error (.NoSuchDirectory id)) ∧
    (id ≠ 0 → p.lookupMount id = none → (∀ r ∈ p.db.dirChildren, r.childId ≠ id) →
      p.renameDirectory id newName = (.error (.NoSuchDirectory id), p) ∧
      p.moveDirectory id dest = (.error (.NoSuchDirectory id), p)) ∧
    (id ≠ 0 → p.lookupMount id = none → id ∉ p.db.dirs →
      p.deleteDirectory id = (.error (.NoSuchDirectory id), p)) ∧
    ((∀ r ∈ p.db.noteChildren, r.childId ≠ id) →
      p.getNoteParent id = .error (.NoSuchNote id) ∧
      p.getNoteName id = .error (.NoSuchNote id) ∧
      p.renameNote id newName = (.error (.NoSuchNote id), p) ∧
      p.moveNote id dest = (.error (.NoSuchNote id), p)) ∧
    ((∀ r ∈ p.db.notes, r.id ≠ id) →
      p.readNote id = .error (.NoSuchNote id) ∧
      p.updateNote id noteText = (.error (.NoSuchNote id), p) ∧
      p.deleteNote id = (.error (.NoSuchNote id), p)) := by
  refine ⟨?_, rfl, ?_, ?_, ?_, ?_, ?_⟩
  · intro hm hnc hdc
    have h1 : p.db.noteChildren.filter (fun r => r.parentId == id) = [] := by
      rw [List.filter_eq_nil_iff]
      intro r hr
      simp [hnc r hr]
    have h2 : p.db.dirChildren.filter (fun r => r.parentId == id) = [] := by
      rw [List.filter_eq_nil_iff]
      intro r hr
      simp [hdc r hr]
    simp only [DbProvider.readDirectory, hm, h1, h2, List.map_nil, List.nil_append]
  · intro h0 hdc
    have hb : (id == 0) = false := beq_eq_false_iff_ne.mpr h0
    have hfind : p.db.dirChildren.find? (fun r => r.childId == id) = none := by
      rw [List.find?_eq_none]
      intro r hr
      simp [hdc r hr]
    constructor
    · simp only [DbProvider.getDirectoryParent, hb, hfind]
      simp
    · simp only [DbProvider.getDirectoryName, hb, hfind]
      simp
  · intro h0 hm hdc
    have hb : (id == 0) = false := beq_eq_false_iff_ne.mpr h0
    have hfind : p.db.dirChildren.find? (fun r => r.childId == id) = none := by
      rw [List.find?_eq_none]
      intro r hr
      simp [hdc r hr]
    have hfil : p.db.dirChildren.filter (fun r => r.childId == id) = [] := by
      rw [List.filter_eq_nil_iff]
      intro r hr
      simp [hdc r hr]
    have hany : (p.db.dirChildren.any (fun m => m.childId == id &&
        p.db.dirChildren.any (fun r => !(r.childId == id) && r.parentId == m.parentId &&
          r.childName == newName))) = false := by
      rw [List.any_eq_false]
      intro m hmem
      simp [hdc m hmem]
    constructor
    · simp only [DbProvider.renameDirectory, hb, hm, Option.isSome_none,
        Bool.false_eq_true, if_false, hany, hfil, List.length_nil]
    · simp only [DbProvider.moveDirectory, hb, hm, Option.isSome_none,
        Bool.false_eq_true, if_false, hfind]
  · intro h0 hm hmem
    have hb : (id == 0) = false := beq_eq_false_iff_ne.mpr h0
    have hc : p.db.dirs.contains id = false := by
      simpa using hmem
    simp only [DbProvider.deleteDirectory, hb, hm, Option.isSome_none,
      Bool.false_eq_true, if_false, hc, Bool.not_false, if_true]
  · intro hnc
    have hfind : p.db.noteChildren.find? (fun r => r.childId == id) = none := by
      rw [List.find?_eq_none]
      intro r hr
      simp [hnc r hr]
    have hfil : p.db.noteChildren.filter (fun r => r.childId == id) = [] := by
      rw [List.filter_eq_nil_iff]
      intro r hr
      simp [hnc r hr]
    have hany : (p.db.noteChildren.any (fun m => m.childId == id &&
        p.db.noteChildren.any (fun r => !(r.childId == id) && r.parentId == m.parentId &&
          r.childName == newName))) = false := by
      rw [List.any_eq_false]
      intro m hmem
      simp [hnc m hmem]
    refine ⟨?_, ?_, ?_, ?_⟩
    · simp only [DbProvider.getNoteParent, hfind]
    · simp only [DbProvider.getNoteName, hfind]
    · simp only [DbProvider.renameNote, hany, hfil, List.length_nil]
      simp
    · simp only [DbProvider.moveNote, hfind]
  · intro hn
    have hfind : p.db.notes.find? (fun r => r.id == id) = none := by
      rw [List.find?_eq_none]
      intro r hr
      simp [hn r hr]
    have hfil : p.db.notes.filter (fun r => r.id == id) = [] := by
      rw [List.filter_eq_nil_iff]
      intro r hr
      simp [hn r hr]
    refine ⟨?_, ?_, ?_⟩
    · simp only [DbProvider.readNote, hfind]
    · simp only [DbProvider.updateNote, hfil, List.length_nil]
    · simp only [DbProvider.deleteNote, hfil, List.length_nil]

/-- C1 witness for the amended statement: the fresh provider and the unknown id 5. -/
theorem c1_amended_unknown_ids_witness :
    emptyDbProvider.readDirectory noMountedOps 5 = .ok [] ∧
    (emptyDbProvider.addMountPoint 5 1).1 = .ok () ∧
    emptyDbProvider.getDirectoryParent 5 = .error (.NoSuchDirectory 5) ∧
    emptyDbProvider.renameDirectory 5 "n" = (.error (.NoSuchDirectory 5), emptyDbProvider) ∧
    emptyDbProvider.moveDirectory 5 0 = (.error (.NoSuchDirectory 5), emptyDbProvider) ∧
    emptyDbProvider.deleteDirectory 5 = (.error (.NoSuchDirectory 5), emptyDbProvider) ∧
    emptyDbProvider.getNoteParent 5 = .error (.NoSuchNote 5) ∧
    emptyDbProvider.renameNote 5 "n" = (.error (.NoSuchNote 5), emptyDbProvider) ∧
    emptyDbProvider.moveNote 5 0 = (.error (.NoSuchNote 5), emptyDbProvider) ∧
    emptyDbProvider.readNote 5 = .error (.NoSuchNote 5) ∧
    emptyDbProvider.updateNote 5 "t" = (.error (.NoSuchNote 5), emptyDbProvider) ∧
    emptyDbProvider.deleteNote 5 = (.error (.NoSuchNote 5), emptyDbProvider) := by
  have h := c1_amended_unknown_ids emptyDbProvider noMountedOps 5 1 0 "n" "t"
  obtain ⟨h1, h2, h3, h4, h5, h6, h7⟩ := h
  refine ⟨h1 rfl (by decide) (by decide), h2, ?_, ?_, ?_, ?_, ?_, ?_, ?_, ?_, ?_, ?_⟩
  · exact (h3 (by decide) (by decide)).1
  · exact (h4 (by decide) rfl (by decide)).1
  · exact (h4 (by decide) rfl (by decide)).2
  · exact h5 (by decide) rfl (by decide)
  · exact (h6 (by decide)).1
  · exact (h6 (by decide)).2.2.1
  · exact (h6 (by decide)).2.2.2
  · exact (h7 (by decide)).1
  · exact (h7 (by decide)).2.1
  · exact (h7 (by decide)).2.2

/-- Splitting an iterated parent walk: walking i + j rows is walking i rows and then
j rows. -/
theorem parentIter_add (st : DbState) (i j d : Nat) :
    parentIter st (i + j) d = (parentIter st i d).bind (parentIter st j) := by
  induction i generalizing d with
  | zero => simp [parentIter]
  | succ i ih =>
    have hs : i + 1 + j = (i + j) + 1 := by omega
    rw [hs]
    cases h : parentOf st d with
    | none => simp [parentIter, h]
    | some par => simp [parentIter, h, ih par]

/-- The ancestry walk finds the target whenever some parent chain of length below the
fuel leads from the start to the target. -/
theorem ancWalk_of_chain (st : DbState) (a : Nat) :
    ∀ k b fuel, parentIter st k b = some a → k < fuel → ancWalk st a fuel b = true := by
  intro k
  induction k with
  | zero =>
    intro b fuel h hf
    have hb : b = a := by
      simpa [parentIter] using h
    cases fuel with
    | zero => omega
    | succ f => simp [ancWalk, hb]
  | succ k ih =>
    intro b fuel h hf
    cases fuel with
    | zero => omega
    | succ f =>
      simp only [parentIter] at h
      cases hp : parentOf st b with
      | none => rw [hp] at h; exact absurd h (by simp)
      | some par =>
        rw [hp] at h
        by_cases hba : (b == a) = true
        · simp [ancWalk, hba]
        · have hba2 : (b == a) = false := by
            cases hh : b == a
            · rfl
            · exact absurd hh hba
          simp only [ancWalk, hba2, Bool.false_eq_true, if_false, hp]
          exact ih par f h (by omega)

/-- Any parent chain can be shortened to one of length at most the size of the
adjacency table: a longer chain revisits a child id (each step consumes a stored
row, and there are only `length` of them), and the cycle between the two visits can
be cut out. -/
theorem exists_chain_le_length (st : DbState) (a : Nat) :
    ∀ k b, parentIter st k b = some a →
      ∃ m, m ≤ st.dirChildren.length ∧ parentIter st m b = some a := by
  intro k
  induction k using Nat.strong_induction_on with
  | _ k ih =>
    intro b hk
    by_cases hkL : k ≤ st.dirChildren.length
    · exact ⟨k, hkL, hk⟩
    · push_neg at hkL
      have hpref : ∀ i, i ≤ k → ∃ n, parentIter st i b = some n := by
        intro i hi
        obtain ⟨j, hj⟩ := Nat.exists_eq_add_of_le hi
        rw [hj, parentIter_add] at hk
        cases hni : parentIter st i b with
        | none => rw [hni] at hk; simp at hk
        | some n => exact ⟨n, rfl⟩
      have hmaps : ∀ i ∈ Finset.range (st.dirChildren.length + 1),
          (parentIter st i b).getD 0 ∈ (st.dirChildren.map DirChildRow.childId).toFinset := by
        intro i hi
        simp only [Finset.mem_range] at hi
        obtain ⟨n, hn⟩ := hpref i (by omega)
        obtain ⟨n2, hn2⟩ := hpref (i + 1) (by omega)
        rw [parentIter_add, hn] at hn2
        simp only [Option.some_bind] at hn2
        simp only [parentIter] at hn2
        cases hp : parentOf st n with
        | none => rw [hp] at hn2; exact absurd hn2 (by simp)
        | some par =>
          unfold parentOf at hp
          cases hfind : st.dirChildren.find? (fun r => r.childId == n) with
          | none => rw [hfind] at hp; exact absurd hp (by simp)
          | some row =>
            have hcn : row.childId = n := by
              have := List.find?_some hfind
              simpa using this
            have hmem : row ∈ st.dirChildren := List.mem_of_find?_eq_some hfind
            rw [hn]
            simp only [Option.getD_some]
            rw [List.mem_toFinset]
            rw [← hcn]
            exact List.mem_map_of_mem DirChildRow.childId hmem
      have hcard : (st.dirChildren.map DirChildRow.childId).toFinset.card
          < (Finset.range (st.dirChildren.length + 1)).card := by
        have h1 := List.toFinset_card_le (st.dirChildren.map DirChildRow.childId)
        rw [Finset.card_range]
        simp only [List.length_map] at h1
        omega
      obtain ⟨i, hi, j, hj, hij, hfij⟩ :=
        Finset.exists_ne_map_eq_of_card_lt_of_maps_to hcard hmaps
      simp only [Finset.mem_range] at hi hj
      rcases Nat.lt_or_ge i j with hlt | hge
      · obtain ⟨ni, hni⟩ := hpref i (by omega)
        obtain ⟨nj, hnj⟩ := hpref j (by omega)
        have hninj : ni = nj := by
          rw [hni, hnj] at hfij
          simpa using hfij
        obtain ⟨rest, hrest⟩ := Nat.exists_eq_add_of_le (show j ≤ k by omega)
        rw [hrest, parentIter_add, hnj] at hk
        simp only [Option.some_bind] at hk
        have hnew : parentIter st (i + rest) b = some a := by
          rw [parentIter_add, hni]
          simp only [Option.some_bind]
          rw [hninj]
          exact hk
        exact ih (i + rest) (by omega) b hnew
      · have hlt2 : j < i := by omega
        obtain ⟨ni, hni⟩ := hpref i (by omega)
        obtain ⟨nj, hnj⟩ := hpref j (by omega)
        have hninj : nj = ni := by
          rw [hni, hnj] at hfij
          simpa using hfij.symm
        obtain ⟨rest, hrest⟩ := Nat.exists_eq_add_of_le (show i ≤ k by omega)
        rw [hrest, parentIter_add, hni] at hk
        simp only [Option.some_bind] at hk
        have hnew : parentIter st (j + rest) b = some a := by
          rw [parentIter_add, hnj]
          simp only [Option.some_bind]
          rw [hninj]
          exact hk
        exact ih (j + rest) (by omega) b hnew

/-- The storage ancestry check agrees with the descendant-or-equal relation: if `b`
is reached from `a` downward (i.e. `a` is reached from `b` by parent rows), the
fuel-bounded walk of check_ancestors.sql detects it. -/
theorem isAncestorOrEq_of_descendantOrEq (st : DbState) (a b : Nat)
    (h : DescendantOrEq st a b) : isAncestorOrEq st a b = true := by
  obtain ⟨k, hk⟩ := h
  obtain ⟨m, hm, hchain⟩ := exists_chain_le_length st a k b hk
  exact ancWalk_of_chain st a m b (st.dirChildren.length + 1) hchain (by omega)

/-- C2 counterexample: the root directory (id 0) is a descendant-or-equal of itself,
yet move_directory(0, destination = 0) fails with CannotMoveRoot, not with
WouldCreateLoop as the claim states for all such pairs. -/
theorem c2_counterexample_root :
    DescendantOrEq emptyDbProvider.db 0 0 ∧
    emptyDbProvider.moveDirectory 0 0 = (.error .CannotMoveRoot, emptyDbProvider) ∧
    ProviderError.CannotMoveRoot ≠ ProviderError.WouldCreateLoop :=
  ⟨⟨0, rfl⟩, rfl, by decide⟩

/-- C2 (amended): for every directory A of the relational provider that is not the
root, not a mount point, and has a parent row, and every B that is a descendant of
A (or equal to it) in storage, move_directory(A, destination = B) fails with
WouldCreateLoop and the storage state after the failed call is identical to the
state before it: the descendant check runs before any mutation. -/
theorem c2_move_into_descendant_loops (p : DbProvider) (a b : Nat) (row : DirChildRow)
    (ha0 : a ≠ 0)
    (hmount : p.lookupMount a = none)
    (hrow : p.db.dirChildren.find? (fun r => r.childId == a) = some row)
    (hdesc : DescendantOrEq p.db a b) :
    p.moveDirectory a b = (.error .WouldCreateLoop, p) := by
  have hb : (a == 0) = false := beq_eq_false_iff_ne.mpr ha0
  have hanc := isAncestorOrEq_of_descendantOrEq p.db a b hdesc
  simp only [DbProvider.moveDirectory, hb, hmount, Option.isSome_none, Bool.false_eq_true,
    if_false, hrow, hanc, if_true]

/-- A provider holding root → a (id 1) → b (id 2). -/
def sampleTreeProvider : DbProvider :=
  ⟨⟨[0, 1, 2], [⟨0, 1, "a"⟩, ⟨1, 2, "b"⟩], [], [], 3, 1⟩, 0, []⟩

/-- C2 witness: moving directory 1 into its child 2 fails with WouldCreateLoop,
leaving the state untouched. -/
theorem c2_move_into_descendant_loops_witness :
    sampleTreeProvider.moveDirectory 1 2
      = (.error .WouldCreateLoop, sampleTreeProvider) :=
  c2_move_into_descendant_loops sampleTreeProvider 1 2 ⟨0, 1, "a"⟩ (by decide) rfl rfl
    ⟨1, rfl⟩

/-- A kb_dir_children insert whose endpoints exist but whose (parent, name) pair is
taken fails with a unique violation. -/
theorem insertDirChild_unique_err (st : DbState) (parent child : Nat) (name : String)
    (hp : st.dirs.contains parent = true) (hc : st.dirs.contains child = true)
    (hconf : st.dirChildren.any (fun r => r.parentId == parent && r.childName == name)
      = true) :
    insertDirChild st parent child name = .error .uniqueViolation := by
  unfold insertDirChild
  rw [hp, hc, hconf]
  simp

/-- A kb_note_children insert whose endpoints exist but whose (parent, name) pair is
taken fails with a unique violation. -/
theorem insertNoteChild_unique_err (st : DbState) (parent child : Nat) (name : String)
    (hp : st.dirs.contains parent = true)
    (hc : st.notes.any (fun r => r.id == child) = true)
    (hconf : st.noteChildren.any (fun r => r.parentId == parent && r.childName == name)
      = true) :
    insertNoteChild st parent child name = .error .uniqueViolation := by
  unfold insertNoteChild
  rw [hp, hc, hconf]
  simp

/-- C4: for every parent directory P of the relational provider that already has a
same-kind child named N, each of create_directory(P, N), create_note(P, _, N),
renaming a same-kind sibling to N, and moving a same-kind item named N into P fails
with TargetNameAlreadyExists(N), and the returned provider state equals the
pre-call state, so the pre-existing child of P named N is unchanged. -/
theorem c4_name_uniqueness (p : DbProvider) (parent : Nat) (name : String) :
    ((∃ c ∈ p.db.dirChildren, c.parentId = parent ∧ c.childName = name) →
      parent ∈ p.db.dirs →
      p.createDirectory parent name = (.error (.TargetNameAlreadyExists name), p)) ∧
    ((∃ c ∈ p.db.noteChildren, c.parentId = parent ∧ c.childName = name) →
      parent ∈ p.db.dirs →
      ∀ noteText, p.createNote parent noteText name
        = (.error (.TargetNameAlreadyExists name), p)) ∧
    (∀ s m c, s ≠ 0 → p.lookupMount s = none →
      m ∈ p.db.dirChildren → m.childId = s → m.parentId = parent →
      c ∈ p.db.dirChildren → c.childId ≠ s → c.parentId = parent → c.childName = name →
      p.renameDirectory s name = (.error (.TargetNameAlreadyExists name), p)) ∧
    (∀ s m c, m ∈ p.db.noteChildren → m.childId = s → m.parentId = parent →
      c ∈ p.db.noteChildren → c.childId ≠ s → c.parentId = parent → c.childName = name →
      p.renameNote s name = (.error (.TargetNameAlreadyExists name), p)) ∧
    (∀ d rowD c, d ≠ 0 → p.lookupMount d = none →
      p.db.dirChildren.find? (fun r => r.childId == d) = some rowD →
      rowD.childName = name →
      isAncestorOrEq p.db d parent = false →
      parent ∈ p.db.dirs →
      c ∈ p.db.dirChildren → c.childId ≠ d → c.parentId = parent → c.childName = name →
      p.moveDirectory d parent = (.error (.TargetNameAlreadyExists name), p)) ∧
    (∀ d rowD c,
      p.db.noteChildren.find? (fun r => r.childId == d) = some rowD →
      rowD.childName = name →
      parent ∈ p.db.dirs →
      c ∈ p.db.noteChildren → c.childId ≠ d → c.parentId = parent → c.childName = name →
      p.moveNote d parent = (.error (.TargetNameAlreadyExists name), p)) := by
  refine ⟨?_, ?_, ?_, ?_, ?_, ?_⟩
  · rintro ⟨c, hcm, hcp, hcn⟩ hpar
    have hins : insertDirChild
        { p.db with dirs := p.db.dirs ++ [p.db.nextDirId], nextDirId := p.db.nextDirId + 1 }
        parent p.db.nextDirId name = .error .uniqueViolation := by
      apply insertDirChild_unique_err
      · exact List.elem_eq_true_of_mem (List.mem_append_left _ hpar)
      · exact List.elem_eq_true_of_mem (List.mem_append_right _ (List.mem_singleton.mpr rfl))
      · rw [List.any_eq_true]
        exact ⟨c, hcm, by simp [hcp, hcn]⟩
    simp only [DbProvider.createDirectory, hins, wrapSqliteError, Option.getD_some]
  · rintro ⟨c, hcm, hcp, hcn⟩ hpar noteText
    have hins :
        insertNoteChild
          { p.db with
            notes := p.db.notes ++ [⟨p.db.nextNoteId, noteText⟩],
            nextNoteId := p.db.nextNoteId + 1 }
          parent p.db.nextNoteId name = .error .uniqueViolation := by
      apply insertNoteChild_unique_err
      · exact List.elem_eq_true_of_mem hpar
      · rw [List.any_eq_true]
        exact ⟨⟨p.db.nextNoteId, noteText⟩,
          List.mem_append_right _ (List.mem_singleton.mpr rfl), by simp⟩
      · rw [List.any_eq_true]
        exact ⟨c, hcm, by simp [hcp, hcn]⟩
    simp only [DbProvider.createNote, hins, wrapSqliteError, Option.getD_some]
  · intro s m c hs0 hsm hmm hmc hmp hcm hcc hcp hcn
    have hb : (s == 0) = false := beq_eq_false_iff_ne.mpr hs0
    have hany : (p.db.dirChildren.any (fun x => x.childId == s &&
        p.db.dirChildren.any (fun r => !(r.childId == s) && r.parentId == x.parentId &&
          r.childName == name))) = true := by
      rw [List.any_eq_true]
      refine ⟨m, hmm, ?_⟩
      rw [Bool.and_eq_true]
      constructor
      · simp [hmc]
      · rw [List.any_eq_true]
        exact ⟨c, hcm, by simp [hcc, hcp, hmp, hcn]⟩
    simp only [DbProvider.renameDirectory, hb, hsm, Option.isSome_none, Bool.false_eq_true,
      if_false, hany, if_true]
  · intro s m c hmm hmc hmp hcm hcc hcp hcn
    have hany : (p.db.noteChildren.any (fun x => x.childId == s &&
        p.db.noteChildren.any (fun r => !(r.childId == s) && r.parentId == x.parentId &&
          r.childName == name))) = true := by
      rw [List.any_eq_true]
      refine ⟨m, hmm, ?_⟩
      rw [Bool.and_eq_true]
      constructor
      · simp [hmc]
      · rw [List.any_eq_true]
        exact ⟨c, hcm, by simp [hcc, hcp, hmp, hcn]⟩
    simp only [DbProvider.renameNote, hany, if_true]
  · intro d rowD c hd0 hdm hfind hname hanc hpar hcm hcc hcp hcn
    have hb : (d == 0) = false := beq_eq_false_iff_ne.mpr hd0
    have hcont : p.db.dirs.contains parent = true := List.elem_eq_true_of_mem hpar
    have hany : (p.db.dirChildren.any (fun r => !(r.childId == d) && r.parentId == parent &&
        r.childName == name)) = true := by
      rw [List.any_eq_true]
      exact ⟨c, hcm, by simp [hcc, hcp, hcn]⟩
    simp only [DbProvider.moveDirectory, hb, hdm, Option.isSome_none, Bool.false_eq_true,
      if_false, hfind, hanc, hcont, Bool.not_true, hany, if_true, hname]
  · intro d rowD c hfind hname hpar hcm hcc hcp hcn
    have hcont : p.db.dirs.contains parent = true := List.elem_eq_true_of_mem hpar
    have hany : (p.db.noteChildren.any (fun r => !(r.childId == d) && r.parentId == parent &&
        r.childName == name)) = true := by
      rw [List.any_eq_true]
      exact ⟨c, hcm, by simp [hcc, hcp, hcn]⟩
    simp only [DbProvider.moveNote, hfind, hcont, Bool.not_true, hany, if_true, hname]
    simp

/-- A provider exhibiting every same-kind name-conflict scenario under the root for
the name foo: directories 1 (foo) and 2 (bar) under root, directory 3 (foo) under
2; notes 11 (foo) and 10 (aaa) under root, note 12 (foo) under directory 2. -/
def sampleConflictProvider : DbProvider :=
  ⟨⟨[0, 1, 2, 3],
    [⟨0, 1, "foo"⟩, ⟨0, 2, "bar"⟩, ⟨2, 3, "foo"⟩],
    [⟨0, 11, "foo"⟩, ⟨0, 10, "aaa"⟩, ⟨2, 12, "foo"⟩],
    [⟨10, "x"⟩, ⟨11, "y"⟩, ⟨12, "z"⟩], 4, 13⟩, 0, []⟩

/-- C4 witness: every conflicting operation against the sample state fails with
TargetNameAlreadyExists("foo") and leaves the state unchanged. -/
theorem c4_name_uniqueness_witness :
    sampleConflictProvider.createDirectory 0 "foo"
      = (.error (.TargetNameAlreadyExists "foo"), sampleConflictProvider) ∧
    sampleConflictProvider.createNote 0 "t" "foo"
      = (.error (.TargetNameAlreadyExists "foo"), sampleConflictProvider) ∧
    sampleConflictProvider.renameDirectory 2 "foo"
      = (.error (.TargetNameAlreadyExists "foo"), sampleConflictProvider) ∧
    sampleConflictProvider.renameNote 10 "foo"
      = (.error (.TargetNameAlreadyExists "foo"), sampleConflictProvider) ∧
    sampleConflictProvider.moveDirectory 3 0
      = (.error (.TargetNameAlreadyExists "foo"), sampleConflictProvider) ∧
    sampleConflictProvider.moveNote 12 0
      = (.error (.TargetNameAlreadyExists "foo"), sampleConflictProvider) := by
  have h := c4_name_uniqueness sampleConflictProvider 0 "foo"
  refine ⟨?_, ?_, ?_, ?_, ?_, ?_⟩
  · exact h.1 ⟨⟨0, 1, "foo"⟩, by decide, rfl, rfl⟩ (by decide)
  · exact h.2.1 ⟨⟨0, 11, "foo"⟩, by decide, rfl, rfl⟩ (by decide) "t"
  · exact h.2.2.1 2 ⟨0, 2, "bar"⟩ ⟨0, 1, "foo"⟩ (by decide) rfl (by decide) rfl rfl
      (by decide) (by decide) rfl rfl
  · exact h.2.2.2.1 10 ⟨0, 10, "aaa"⟩ ⟨0, 11, "foo"⟩ (by decide) rfl rfl
      (by decide) (by decide) rfl rfl
  · exact h.2.2.2.2.1 3 ⟨2, 3, "foo"⟩ ⟨0, 1, "foo"⟩ (by decide) rfl rfl rfl rfl
      (by decide) (by decide) (by decide) rfl rfl
  · exact h.2.2.2.2.2 12 ⟨2, 12, "foo"⟩ ⟨0, 11, "foo"⟩ rfl rfl (by decide)
      (by decide) (by decide) rfl rfl

/-- The fuel-bounded digit expansion is exact once the fuel covers the number. -/
theorem ofDigits_natDigitsRev : ∀ (fuel n : Nat), n ≤ fuel →
    Nat.ofDigits 10 (natDigitsRev fuel n) = n := by
  intro fuel
  induction fuel with
  | zero =>
    intro n hn
    have : n = 0 := by omega
    simp [this, natDigitsRev, Nat.ofDigits_nil]
  | succ f ih =>
    intro n hn
    by_cases h0 : n = 0
    · simp [h0, natDigitsRev, Nat.ofDigits_nil]
    · have hb : (n == 0) = false := beq_eq_false_iff_ne.mpr h0
      simp only [natDigitsRev, hb, Bool.false_eq_true, if_false]
      rw [Nat.ofDigits_cons]
      have hdiv : n / 10 ≤ f := by
        have := Nat.div_lt_self (Nat.pos_of_ne_zero h0) (by norm_num : 1 < 10)
        omega
      rw [ih (n / 10) hdiv]
      omega

/-- Every digit produced by the expansion is below the base. -/
theorem natDigitsRev_lt_base : ∀ (fuel n d : Nat), d ∈ natDigitsRev fuel n → d < 10 := by
  intro fuel
  induction fuel with
  | zero => intro n d hd; simp [natDigitsRev] at hd
  | succ f ih =>
    intro n d hd
    by_cases h0 : (n == 0) = true
    · simp [natDigitsRev, h0] at hd
    · have hb : (n == 0) = false := by
        cases hh : n == 0
        · rfl
        · exact absurd hh h0
      simp only [natDigitsRev, hb, Bool.false_eq_true, if_false, List.mem_cons] at hd
      rcases hd with hd | hd
      · omega
      · exact ih (n / 10) d hd

/-- Folding the digit-accumulation step over a reversed (big-endian) digit list. -/
theorem foldl_reverse_ofDigits : ∀ (ds : List Nat) (acc : Nat),
    List.foldl (fun a d => a * 10 + d) acc ds.reverse
      = acc * 10 ^ ds.length + Nat.ofDigits 10 ds := by
  intro ds
  induction ds with
  | nil => intro acc; simp [Nat.ofDigits_nil]
  | cons d ds ih =>
    intro acc
    rw [List.reverse_cons, List.foldl_append, ih acc, Nat.ofDigits_cons]
    simp only [List.foldl_cons, List.foldl_nil, List.length_cons, Nat.cast_id]
    ring

/-- The digit-accumulation fold never decreases the accumulator. -/
theorem foldl_digits_le : ∀ (bs : List Nat) (acc : Nat),
    acc ≤ List.foldl (fun a d => a * 10 + d) acc bs := by
  intro bs
  induction bs with
  | nil => intro acc; simp
  | cons b bs ih =>
    intro acc
    calc acc ≤ acc * 10 + b := by nlinarith
    _ ≤ List.foldl (fun a d => a * 10 + d) (acc * 10 + b) bs := ih (acc * 10 + b)
    _ = List.foldl (fun a d => a * 10 + d) acc (b :: bs) := by simp

/-- digitChar yields a decimal digit character. -/
theorem digitChar_isDigit (d : Nat) (h : d < 10) : (digitChar d).isDigit = true := by
  interval_cases d <;> decide

/-- digitChar's code point is 48 plus the digit. -/
theorem digitChar_toNat (d : Nat) (h : d < 10) : (digitChar d).toNat = 48 + d := by
  interval_cases d <;> decide

/-- digitChar never yields the colon separator. -/
theorem digitChar_ne_colon (d : Nat) (h : d < 10) : (digitChar d == ':') = false := by
  interval_cases d <;> decide

/-- digitChar never yields a plus sign. -/
theorem digitChar_ne_plus (d : Nat) (h : d < 10) : (digitChar d == '+') = false := by
  interval_cases d <;> decide

/-- The parser digit loop consumes a rendered digit list exactly, accumulating its
value, as long as the final value stays below 2^64 (checked arithmetic never
trips: the accumulator is monotone along the fold). -/
theorem parseU64Digits_spec : ∀ (bs : List Nat) (acc : Nat), (∀ d ∈ bs, d < 10) →
    List.foldl (fun a d => a * 10 + d) acc bs < 2 ^ 64 →
    parseU64Digits acc (bs.map digitChar)
      = some (List.foldl (fun a d => a * 10 + d) acc bs) := by
  intro bs
  induction bs with
  | nil => intro acc _ _; simp [parseU64Digits]
  | cons b bs ih =>
    intro acc hdig hlt
    have hb : b < 10 := hdig b (List.mem_cons_self b bs)
    have hfold : List.foldl (fun a d => a * 10 + d) acc (b :: bs)
        = List.foldl (fun a d => a * 10 + d) (acc * 10 + b) bs := by simp
    simp only [List.map_cons, parseU64Digits, digitChar_isDigit b hb, if_true,
      digitChar_toNat b hb]
    have hsub : 48 + b - 48 = b := by omega
    rw [hsub]
    have hacc2 : acc * 10 + b < 2 ^ 64 := by
      have := foldl_digits_le bs (acc * 10 + b)
      rw [hfold] at hlt
      omega
    rw [if_pos hacc2]
    rw [ih (acc * 10 + b) (fun d hd => hdig d (List.mem_cons_of_mem b hd)) (by rw [← hfold]; exact hlt)]
    rw [hfold]

/-- split_once finds the first separator: splitting `l ++ sep :: r` with no separator
in `l` gives back `(l, r)`. -/
theorem splitOnceChar_append (sep : Char) : ∀ (l r : List Char),
    (∀ c ∈ l, (c == sep) = false) →
    splitOnceChar sep (l ++ sep :: r) = some (l, r) := by
  intro l
  induction l with
  | nil =>
    intro r _
    simp [splitOnceChar]
  | cons c cs ih =>
    intro r h
    have hc : (c == sep) = false := h c (List.mem_cons_self c cs)
    simp only [List.cons_append, splitOnceChar, hc, Bool.false_eq_true, if_false,
      List.append_eq, ih r (fun x hx => h x (List.mem_cons_of_mem c hx))]

/-- The decimal rendering of a u64 value contains no colon. -/
theorem decRepr_no_colon (n : Nat) : ∀ c ∈ decRepr n, (c == ':') = false := by
  intro c hc
  unfold decRepr at hc
  by_cases h0 : (n == 0) = true
  · rw [if_pos h0] at hc
    simp at hc
    rw [hc]
    decide
  · have hb : (n == 0) = false := by
      cases hh : n == 0
      · rfl
      · exact absurd hh h0
    rw [hb] at hc
    simp only [Bool.false_eq_true, if_false, List.mem_map, List.mem_reverse] at hc
    obtain ⟨d, hd, hdc⟩ := hc
    rw [← hdc]
    exact digitChar_ne_colon d (natDigitsRev_lt_base n n d hd)

/-- When the first character is not a plus sign, u64 parsing goes straight to the
digit loop. -/
theorem parseU64_cons_not_plus (c : Char) (cs : List Char) (h : (c == '+') = false) :
    parseU64 (c :: cs) = parseU64Digits 0 (c :: cs) := by
  unfold parseU64 stripPlus
  simp [h]

/-- Parsing the decimal rendering of a u64 value returns the value. -/
theorem parseU64_decRepr (n : Nat) (hn : n < 2 ^ 64) : parseU64 (decRepr n) = some n := by
  by_cases h0 : n = 0
  · rw [h0]
    decide
  · have hb : (n == 0) = false := beq_eq_false_iff_ne.mpr h0
    have hds : natDigitsRev n n ≠ [] := by
      cases n with
      | zero => exact absurd rfl h0
      | succ m => simp [natDigitsRev]
    have hval : List.foldl (fun a d => a * 10 + d) 0 (natDigitsRev n n).reverse = n := by
      rw [foldl_reverse_ofDigits]
      rw [ofDigits_natDigitsRev n n (Nat.le_refl n)]
      simp
    unfold decRepr
    rw [hb]
    simp only [Bool.false_eq_true, if_false]
    cases hbs : (natDigitsRev n n).reverse with
    | nil => exact absurd (by simpa using hbs) hds
    | cons d ds =>
      have hdmem : d ∈ natDigitsRev n n := by
        have hh : d ∈ (natDigitsRev n n).reverse := by
          rw [hbs]
          exact List.mem_cons_self d ds
        simpa using hh
      have hdlt : d < 10 := natDigitsRev_lt_base n n d hdmem
      have hplus : (digitChar d == '+') = false := digitChar_ne_plus d hdlt
      have hdigits : ∀ x ∈ d :: ds, x < 10 := by
        intro x hx
        apply natDigitsRev_lt_base n n
        have hh : x ∈ (natDigitsRev n n).reverse := by rw [hbs]; exact hx
        simpa using hh
      have hlt : List.foldl (fun a x => a * 10 + x) 0 (d :: ds) < 2 ^ 64 := by
        rw [← hbs, hval]
        exact hn
      rw [List.map_cons]
      rw [parseU64_cons_not_plus _ _ hplus]
      rw [← List.map_cons]
      rw [parseU64Digits_spec (d :: ds) 0 hdigits hlt]
      rw [← hbs, hval]

/-- Round trip of the provider-local decimal pair through split and parse. -/
theorem parseIdPair_roundTrip (x y : Nat) (hx : x < 2 ^ 64) (hy : y < 2 ^ 64) :
    parseIdPairChars (decRepr x ++ ':' :: decRepr y) = some (x, y) := by
  have hsplit : splitOnceChar ':' (decRepr x ++ ':' :: decRepr y)
      = some (decRepr x, decRepr y) :=
    splitOnceChar_append ':' (decRepr x) (decRepr y) (decRepr_no_colon x)
  simp only [parseIdPairChars, hsplit, parseU64_decRepr x hx, parseU64_decRepr y hy]

/-- C8: for every FullDirectoryId and FullNoteId (u64 provider id paired with a u64
local id), parsing the textual form produced by Display — the decimal
provider:local pair, split on the first colon with both sides parsed as u64 —
yields back exactly the original id pair. -/
theorem c8_id_text_round_trip (pr dir nt : Nat)
    (h1 : pr < 2 ^ 64) (h2 : dir < 2 ^ 64) (h3 : nt < 2 ^ 64) :
    parseFullDirectoryId (FullDirectoryId.displayChars ⟨pr, dir⟩) = some ⟨pr, dir⟩ ∧
    parseFullNoteId (FullNoteId.displayChars ⟨pr, nt⟩) = some ⟨pr, nt⟩ := by
  constructor
  · simp only [parseFullDirectoryId, FullDirectoryId.displayChars]
    rw [parseIdPair_roundTrip pr dir h1 h2]
    rfl
  · simp only [parseFullNoteId, FullNoteId.displayChars]
    rw [parseIdPair_roundTrip pr nt h1 h3]
    rfl

/-- C8 witness: concrete ids round-trip through the textual form. -/
theorem c8_id_text_round_trip_witness :
    parseFullDirectoryId (FullDirectoryId.displayChars ⟨3, 71⟩) = some ⟨3, 71⟩ ∧
    parseFullNoteId (FullNoteId.displayChars ⟨3, 0⟩) = some ⟨3, 0⟩ :=
  c8_id_text_round_trip 3 71 0 (by decide) (by decide) (by decide)

end HseEco

